import Mathlib

/-!
Verification of the SHL catalog scraper (`scrape/scrape_data.py`).

Python strings are modelled as `List Char` (`Str`); pandas tables as
`List Row`.  Each definition mirrors one function or code block of
`scrape_data.py`; the pandas library calls (`concat`, `drop_duplicates`,
`sort_values`, column projection) are modelled by their documented
semantics.  `sort_values` with its default `kind='quicksort'` is
documented by pandas as *not* stable, so the sort step is modelled as a
relation (any permutation of the input that is ordered by
`assessment_name`), not as a particular algorithm.
-/

set_option maxHeartbeats 1000000

abbrev Str := List Char

/-- Whitespace per Python `str.strip` / `str.split` (ASCII/Latin-1 part:
space, \t, \n, \r, \v, \f, file/group/record/unit separators, NEL, NBSP;
other Unicode `Zs` characters are omitted as they never occur here). -/
def pyIsSpace (c : Char) : Bool :=
  c.isWhitespace || c.val == 11 || c.val == 12 || c.val == 28 || c.val == 29 ||
  c.val == 30 || c.val == 31 || c.val == 133 || c.val == 160

/-- Python `str.strip()`: drop leading and trailing whitespace. -/
def pyStrip (s : Str) : Str :=
  ((s.dropWhile pyIsSpace).reverse.dropWhile pyIsSpace).reverse

/-- Helper for `pySplitWs`: accumulate the current word (reversed) while
scanning. -/
def splitWsAux : Str → Str → List Str
  | [], acc => if acc = [] then [] else [acc.reverse]
  | c :: cs, acc =>
    if pyIsSpace c then
      if acc = [] then splitWsAux cs [] else acc.reverse :: splitWsAux cs []
    else splitWsAux cs (c :: acc)

/-- Python `str.split()` with no argument: split on runs of whitespace,
producing no empty chunks. -/
def pySplitWs (s : Str) : List Str := splitWsAux s []

/-- Line-break characters recognised by Python `str.splitlines`. -/
def isLineBreak (c : Char) : Bool :=
  c.val == 10 || c.val == 13 || c.val == 11 || c.val == 12 || c.val == 28 ||
  c.val == 29 || c.val == 30 || c.val == 133 || c.val == 8232 || c.val == 8233

/-- Helper for `pySplitLines`; `\r\n` counts as a single break. -/
def splitLinesAux : Str → Str → List Str
  | [], acc => if acc = [] then [] else [acc.reverse]
  | c :: cs, acc =>
    if c.val == 13 then
      match cs with
      | d :: rest =>
        if d.val == 10 then acc.reverse :: splitLinesAux rest []
        else acc.reverse :: splitLinesAux (d :: rest) []
      | [] => [acc.reverse]
    else if isLineBreak c then acc.reverse :: splitLinesAux cs []
    else splitLinesAux cs (c :: acc)

/-- Python `str.splitlines()`. -/
def pySplitLines (s : Str) : List Str := splitLinesAux s []

/-- Join a list of strings with a separator, as Python `sep.join(xs)`. -/
def joinWith (sep : Str) : List Str → Str
  | [] => []
  | [x] => x
  | x :: y :: rest => x ++ sep ++ joinWith sep (y :: rest)

/-- `clean_text` (scrape_data.py:55-58): empty/None text maps to `""`,
otherwise whitespace runs are collapsed to single spaces and ends trimmed
via `" ".join(text.strip().split())`. -/
def clean_text (s : Str) : Str :=
  if s = [] then [] else joinWith [' '] (pySplitWs (pyStrip s))

/-- Python string `<`: lexicographic comparison by code point. -/
def strLt : Str → Str → Bool
  | [], [] => false
  | [], _ :: _ => true
  | _ :: _, [] => false
  | a :: as, b :: bs =>
    if a.val < b.val then true
    else if b.val < a.val then false
    else strLt as bs

/-- Python string `<=` derived from `strLt` (total order). -/
def strLe (a b : Str) : Bool := !(strLt b a)

/-- Insert into a `strLt`-sorted list (used to model Python `sorted`). -/
def insertStr (x : Str) : List Str → List Str
  | [] => [x]
  | y :: ys => if strLt x y then x :: y :: ys else y :: insertStr x ys

/-- Python `sorted` on strings (insertion sort; the input below is always
deduplicated first, so stability is irrelevant). -/
def sortStrs : List Str → List Str
  | [] => []
  | x :: xs => insertStr x (sortStrs xs)

/-- Keep the first occurrence of every key (`seen` holds keys already
emitted).  Models both Python `set` collection and pandas
`drop_duplicates(keep='first')`. -/
def dedupByKey {α β : Type} [DecidableEq β] (key : α → β) : List α → List β → List α
  | [], _ => []
  | x :: xs, seen =>
    if key x ∈ seen then dedupByKey key xs seen
    else x :: dedupByKey key xs (key x :: seen)

/-- `get_test_codes` (scrape_data.py:67-80), happy path: `badges` are the
texts of the badge sub-elements, `cellText` the raw text of the 4th cell.
Badge texts are cleaned; if there are no badge elements at all, the cell
text is split by lines, blank lines dropped, lines cleaned; empty
candidates are filtered out; result is the sorted deduplicated set joined
by ", ", or "N/A" when nothing remains. -/
def get_test_codes (badges : List Str) (cellText : Str) : Str :=
  let codes := badges.map clean_text
  let codes :=
    if codes = [] then
      ((pySplitLines cellText).filter (fun t => pyStrip t ≠ [])).map clean_text
    else codes
  let valid_codes := codes.filter (fun code => code ≠ [])
  if valid_codes = [] then "N/A".toList
  else joinWith (", ".toList) (sortStrs (dedupByKey id valid_codes []))

/-- `standardize_url` (scrape_data.py:82-88): empty input maps to `""`;
otherwise the input is stripped and, unless it already starts with
`http://` or `https://`, prefixed with `https://www.shl.com`. -/
def standardize_url (url : Str) : Str :=
  if url = [] then []
  else
    let u := pyStrip url
    if ("http://".toList).isPrefixOf u || ("https://".toList).isPrefixOf u then u
    else "https://www.shl.com".toList ++ u

/-- One catalog record / table row.  `id = none` models a null identifier
(Python `None` in a fresh record, NaN in a reloaded table).  `page` is
`none` for rows loaded from / projected into the persisted table (the
persisted column set has no `page` column; `pd.concat` fills it with NaN)
and `some n` for freshly scraped rows. -/
structure Row where
  id : Option Str
  assessment_name : Str
  url : Str
  remote_testing : Bool
  adaptive_irt_support : Bool
  test_type : Str
  page : Option Nat := none
deriving DecidableEq, Repr

/-- Raw data of one `<tr>` element, as seen through the selenium calls in
the row loop of `scrape_page` (scrape_data.py:100-115).  `hasName` is
whether the `td a` lookup succeeds; when it fails the row raises and is
skipped. -/
structure RawRow where
  hasName : Bool
  nameText : Str
  href : Option Str
  yes2 : Bool
  yes3 : Bool
  badges : List Str
  cellText : Str
  courseId : Option Str
  entityId : Option Str
deriving DecidableEq, Repr

/-- Python `a or b` on optional attribute strings: `None` and `""` are
falsy (scrape_data.py:110). -/
def pyOrAttr (a b : Option Str) : Option Str :=
  match a with
  | none => b
  | some s => if s = [] then b else some s

/-- The body of the row `try` block (scrape_data.py:101-112): `none` when
the required name element is missing (the row is skipped with a warning),
otherwise the extracted record.  `get_attribute('href')` returning `None`
reaches `standardize_url` as a falsy value, i.e. yields `""`. -/
def extractFields (page_num : Nat) (r : RawRow) : Row :=
  { id := pyOrAttr r.courseId r.entityId
    assessment_name := clean_text r.nameText
    url := standardize_url (r.href.getD [])
    remote_testing := r.yes2
    adaptive_irt_support := r.yes3
    test_type := get_test_codes r.badges r.cellText
    page := some page_num }

def extract_row (page_num : Nat) (r : RawRow) : Option Row :=
  if r.hasName then some (extractFields page_num r) else none

/-- The nested table/row loops of one successful `scrape_page` attempt
(scrape_data.py:98-115): records of well-formed rows in document order,
plus the number of logged row warnings. -/
def processTables (page_num : Nat) (tables : List (List RawRow)) :
    List Row × Nat :=
  let rows := tables.flatten
  (rows.filterMap (extract_row page_num), rows.countP (fun r => !r.hasName))

/-- Environment of one `scrape_page` attempt: whether `driver.get` and the
subsequent table wait succeed, and the page content seen on success.
`waitFound i` tells whether the `i`-th inner `wait_for_element` attempt
finds the table. -/
structure AttemptEnv where
  navOk : Bool
  waitFound : Nat → Bool
  tables : List (List RawRow)

/-- `wait_for_element` (scrape_data.py:42-53) with its default
`retries=3`: scans inner attempts; on each timeout before the last it
logs and sleeps 2 seconds; on the last it re-raises.  Returns
`(outcome, sleeps)` where `outcome = none` models the raised
`TimeoutException`. -/
def wait_for_element_go (found : Nat → Bool) : Nat → Nat → Option Unit × List Nat
  | _, 0 => (none, [])
  | attempt, fuel + 1 =>
    if found attempt then (some (), [])
    else if fuel = 0 then (none, [])
    else
      let rest := wait_for_element_go found (attempt + 1) fuel
      (rest.1, 2 :: rest.2)

/-- `wait_for_element` with `retries = 3` (the call in `scrape_page` uses
the defaults). -/
def wait_for_element (found : Nat → Bool) : Option Unit × List Nat :=
  wait_for_element_go found 0 3

/-- One `scrape_page` attempt body (scrape_data.py:95-116): `driver.get`
may raise, then `wait_for_element` may raise after its inner retries;
otherwise the row loops run.  Result: `none` on a fault (with the sleeps
spent inside the wait), `some` with the page records and warning count on
success. -/
def scrape_attempt (page_num : Nat) (env : AttemptEnv) :
    Option (List Row × Nat) × List Nat :=
  if env.navOk then
    let w := wait_for_element env.waitFound
    match w.1 with
    | some _ => (some (processTables page_num env.tables), w.2)
    | none => (none, w.2)
  else (none, [])

/-- Result of `scrape_page`: records returned, every `time.sleep` issued
(in seconds, in order), number of row warnings, and whether the
page-level failure was logged as an error. -/
structure PageResult where
  records : List Row
  sleeps : List Nat
  rowWarnings : Nat
  errorLogged : Bool
deriving DecidableEq, Repr

/-- The retry loop of `scrape_page` (scrape_data.py:90-123) with
`max_retries = 3`: a faulting attempt before the last sleeps 5 seconds
and retries; the last faulting attempt logs an error and returns `[]`. -/
def scrape_page_go (page_num : Nat) (envs : Nat → AttemptEnv) :
    Nat → Nat → PageResult
  | _, 0 => { records := [], sleeps := [], rowWarnings := 0, errorLogged := false }
  | attempt, fuel + 1 =>
    let a := scrape_attempt page_num (envs attempt)
    match a.1 with
    | some (recs, warns) =>
      { records := recs, sleeps := a.2, rowWarnings := warns, errorLogged := false }
    | none =>
      if fuel = 0 then
        { records := [], sleeps := a.2, rowWarnings := 0, errorLogged := true }
      else
        let rest := scrape_page_go page_num envs (attempt + 1) fuel
        { rest with sleeps := a.2 ++ 5 :: rest.sleeps }

/-- `scrape_page` (scrape_data.py:90-123) over a sequence of attempt
environments. -/
def scrape_page (page_num : Nat) (envs : Nat → AttemptEnv) : PageResult :=
  scrape_page_go page_num envs 0 3

/-- Python `str(prod['id'])` on a freshly scraped record
(scrape_data.py:154,160): a null id prints as `"None"`. -/
def strId : Option Str → Str
  | none => "None".toList
  | some s => s

/-- `existing_df['id'].astype(str)` on a reloaded table
(scrape_data.py:137): a missing CSV field is NaN and stringifies to
`"nan"`. -/
def csvStrId : Option Str → Str
  | none => "nan".toList
  | some s => s

/-- The known-identifier set derived from the loaded table
(scrape_data.py:134-141): empty when no file exists. -/
def existingIds : Option (List Row) → List Str
  | none => []
  | some t => t.map (fun r => csvStrId r.id)

/-- The per-batch incremental filter (scrape_data.py:154): keep only
records whose stringified id is not already known. -/
def newProducts (existing : Option (List Row)) (batch : List Row) : List Row :=
  batch.filter (fun r => !(decide (strId r.id ∈ existingIds existing)))

/-- `drop_duplicates(subset=["id"], keep='first')`
(scrape_data.py:177).  pandas treats null keys (NaN/None) as equal to
each other, so `id = none` is one duplicate group like any other. -/
def dropDupById (l : List Row) : List Row :=
  dedupByKey Row.id l []

/-- Comparison used by `sort_values(by=["assessment_name"])`: Python
string `<=` on the name. -/
def leName (a b : Row) : Bool := strLe a.assessment_name b.assessment_name

/-- Ascending by `assessment_name`: every adjacent pair is `leName`-
ordered. -/
def sortedByName : List Row → Bool
  | [] => true
  | [_] => true
  | a :: b :: rest => leName a b && sortedByName (b :: rest)

/-- `sort_values(by=["assessment_name"])` (scrape_data.py:178) with its
default `kind='quicksort'`, which pandas documents as not stable: the
output is some permutation of the input that is ascending by
`assessment_name`; the order of ties is not specified. -/
def sortByNameRel (l out : List Row) : Prop :=
  l.Perm out ∧ sortedByName out = true

/-- The column projection of scrape_data.py:179: the persisted column set
drops `page` (the remaining columns are only reordered, which a record
model does not observe). -/
def projectRow (r : Row) : Row := { r with page := none }

/-- Result of the merge-and-persist step: the table the run reports, and
whether a write to the store was performed. -/
structure MergeResult where
  table : Option (List Row)
  wrote : Bool
deriving DecidableEq, Repr

/-- The merge-and-persist step (scrape_data.py:133-189) for one batch:
filter the batch against the known ids of the loaded table; if nothing
new remains, skip the write and report the loaded table unchanged
(`noNew`); otherwise concatenate existing rows before new ones,
deduplicate by id keeping the first occurrence, sort by
`assessment_name` (any quicksort outcome), project the columns, and
write (`write`).  Relational because of the sort step. -/
inductive mergeRun (existing : Option (List Row)) (batch : List Row) :
    MergeResult → Prop
  | noNew :
      newProducts existing batch = [] →
      mergeRun existing batch { table := existing, wrote := false }
  | write (sorted : List Row) :
      newProducts existing batch ≠ [] →
      sortByNameRel
        (dropDupById (existing.getD [] ++ newProducts existing batch)) sorted →
      mergeRun existing batch
        { table := some (sorted.map projectRow), wrote := true }

/-- Sample persisted record (page column already projected away). -/
def rowA : Row :=
  { id := some ("A".toList), assessment_name := "Alpha".toList,
    url := "https://www.shl.com/a".toList, remote_testing := true,
    adaptive_irt_support := false, test_type := "K7".toList }

/-- Sample freshly scraped record with a new id. -/
def rowB : Row :=
  { id := some ("B".toList), assessment_name := "Beta".toList,
    url := "https://www.shl.com/b".toList, remote_testing := false,
    adaptive_irt_support := true, test_type := "A2".toList, page := some 1 }

/-- Freshly scraped record that collides with `rowA` on id `A` but carries
different field values. -/
def rowAClash : Row :=
  { id := some ("A".toList), assessment_name := "Alpha v2".toList,
    url := "https://www.shl.com/a2".toList, remote_testing := false,
    adaptive_irt_support := false, test_type := "B1".toList, page := some 1 }

/-- Freshly scraped record with a null identifier. -/
def rowNull1 : Row :=
  { id := none, assessment_name := "Nameless one".toList, url := [],
    remote_testing := false, adaptive_irt_support := false,
    test_type := "N/A".toList, page := some 1 }

/-- A second freshly scraped record with a null identifier. -/
def rowNull2 : Row :=
  { id := none, assessment_name := "Nameless two".toList, url := [],
    remote_testing := false, adaptive_irt_support := false,
    test_type := "N/A".toList, page := some 1 }

/-- Two records sharing one `assessment_name` but differing elsewhere. -/
def rowTie1 : Row :=
  { id := some ("T1".toList), assessment_name := "Tie".toList,
    url := "https://www.shl.com/t1".toList, remote_testing := true,
    adaptive_irt_support := false, test_type := "K7".toList, page := some 1 }

/-- See `rowTie1`. -/
def rowTie2 : Row :=
  { id := some ("T2".toList), assessment_name := "Tie".toList,
    url := "https://www.shl.com/t2".toList, remote_testing := false,
    adaptive_irt_support := false, test_type := "A2".toList, page := some 1 }

/-- Well-formed sample row element. -/
def goodRaw : RawRow :=
  { hasName := true, nameText := "Test".toList, href := some "/p".toList,
    yes2 := true, yes3 := false, badges := ["K7".toList], cellText := [],
    courseId := some "C1".toList, entityId := none }

/-- Malformed sample row element: the `td a` name lookup fails. -/
def badRaw : RawRow :=
  { hasName := false, nameText := [], href := none, yes2 := false,
    yes3 := false, badges := [], cellText := [], courseId := none,
    entityId := none }

section DedupLemmas

variable {α β : Type} [DecidableEq β] (key : α → β)

theorem dedupByKey_sublist :
    ∀ (l : List α) (seen : List β), List.Sublist (dedupByKey key l seen) l := by
  intro l
  induction l with
  | nil => intro seen; simp [dedupByKey]
  | cons x xs ih =>
    intro seen
    rw [dedupByKey]
    by_cases h : key x ∈ seen
    · simp only [if_pos h]
      exact (ih seen).cons x
    · simp only [if_neg h]
      exact (ih (key x :: seen)).cons₂ x

theorem dedupByKey_notMem_seen :
    ∀ (l : List α) (seen : List β) (x : α),
      x ∈ dedupByKey key l seen → key x ∉ seen := by
  intro l
  induction l with
  | nil => intro seen x hx; simp [dedupByKey] at hx
  | cons y ys ih =>
    intro seen x hx
    rw [dedupByKey] at hx
    by_cases h : key y ∈ seen
    · rw [if_pos h] at hx
      exact ih seen x hx
    · rw [if_neg h] at hx
      rcases List.mem_cons.mp hx with rfl | hx'
      · exact h
      · intro hk
        exact ih (key y :: seen) x hx' (List.mem_cons_of_mem _ hk)

theorem dedupByKey_countP_le_one (k : β) :
    ∀ (l : List α) (seen : List β),
      (dedupByKey key l seen).countP (fun x => decide (key x = k)) ≤ 1 := by
  intro l
  induction l with
  | nil => intro seen; simp [dedupByKey]
  | cons x xs ih =>
    intro seen
    rw [dedupByKey]
    by_cases h : key x ∈ seen
    · rw [if_pos h]; exact ih seen
    · rw [if_neg h]
      by_cases hk : key x = k
      · rw [List.countP_cons_of_pos _ _ (by simp [hk])]
        have hz : (dedupByKey key xs (key x :: seen)).countP
            (fun y => decide (key y = k)) = 0 := by
          rw [List.countP_eq_zero]
          intro a ha
          have := dedupByKey_notMem_seen key xs (key x :: seen) a ha
          simp only [decide_eq_true_eq]
          intro hak
          exact this (by rw [hak, ← hk]; exact List.mem_cons_self _ _)
        omega
      · rw [List.countP_cons_of_neg _ _ (by simp [hk])]
        exact ih (key x :: seen)

theorem dedupByKey_exists_key :
    ∀ (l : List α) (seen : List β) (e : α),
      e ∈ l → key e ∉ seen →
      ∃ x ∈ dedupByKey key l seen, key x = key e := by
  intro l
  induction l with
  | nil => intro seen e he; simp at he
  | cons y ys ih =>
    intro seen e he hseen
    rw [dedupByKey]
    by_cases h : key y ∈ seen
    · rw [if_pos h]
      rcases List.mem_cons.mp he with rfl | he'
      · exact absurd h hseen
      · exact ih seen e he' hseen
    · rw [if_neg h]
      rcases List.mem_cons.mp he with rfl | he'
      · exact ⟨e, List.mem_cons_self _ _, rfl⟩
      · by_cases hk : key e = key y
        · exact ⟨y, List.mem_cons_self _ _, hk.symm⟩
        · have hseen' : key e ∉ key y :: seen := by
            intro hmem
            rcases List.mem_cons.mp hmem with h1 | h2
            · exact hk h1
            · exact hseen h2
          obtain ⟨x, hx, hxk⟩ := ih (key y :: seen) e he' hseen'
          exact ⟨x, List.mem_cons_of_mem _ hx, hxk⟩

end DedupLemmas

theorem two_le_countP_of_ne {α : Type} {p : α → Bool} :
    ∀ (l : List α) (a b : α), a ∈ l → b ∈ l → a ≠ b →
      p a = true → p b = true → 2 ≤ l.countP p := by
  intro l
  induction l with
  | nil => intro a b ha; simp at ha
  | cons c cs ih =>
    intro a b ha hb hne hpa hpb
    rcases List.mem_cons.mp ha with rfl | ha' <;>
      rcases List.mem_cons.mp hb with h | hb'
    · exact absurd h.symm hne
    · rw [List.countP_cons_of_pos _ _ hpa]
      have : 0 < cs.countP p := List.countP_pos_iff.mpr ⟨b, hb', hpb⟩
      omega
    · subst h
      rw [List.countP_cons_of_pos _ _ hpb]
      have : 0 < cs.countP p := List.countP_pos_iff.mpr ⟨a, ha', hpa⟩
      omega
    · have := ih a b ha' hb' hne hpa hpb
      rw [List.countP_cons]
      omega

theorem countP_eq_one_unique {α : Type} {p : α → Bool} {l : List α}
    (h : l.countP p = 1) {a b : α} (ha : a ∈ l) (hb : b ∈ l)
    (hpa : p a = true) (hpb : p b = true) : a = b := by
  by_contra hne
  have := two_le_countP_of_ne l a b ha hb hne hpa hpb
  omega

theorem filterMap_extract_row (pn : Nat) :
    ∀ rows : List RawRow,
      rows.filterMap (extract_row pn) =
        (rows.filter (fun r => r.hasName)).map (extractFields pn) := by
  intro rows
  induction rows with
  | nil => rfl
  | cons r rs ih =>
    by_cases h : r.hasName
    · simp [extract_row, h, List.filterMap_cons, List.filter_cons, ih]
    · simp [extract_row, h, List.filterMap_cons, List.filter_cons, ih]

/-- A row whose `page` column is already absent is unchanged by the
projection. -/
theorem projectRow_eq_self {r : Row} (h : r.page = none) : projectRow r = r := by
  cases r
  simp only [projectRow]
  subst h
  rfl

theorem leName_projectRow (a b : Row) :
    leName (projectRow a) (projectRow b) = leName a b := rfl

/-- Dropping the `page` column does not disturb the name order. -/
theorem sortedByName_map_projectRow :
    ∀ l : List Row, sortedByName (l.map projectRow) = sortedByName l := by
  intro l
  induction l with
  | nil => rfl
  | cons a t ih =>
    cases t with
    | nil => rfl
    | cons b t2 =>
      simp only [List.map_cons] at ih ⊢
      simp only [sortedByName, leName_projectRow]
      rw [ih]

/-- Common count bound behind the uniqueness claims: a table written by
the merge step has at most one record per id key (null included). -/
theorem merged_countP_id_le_one
    (existing : Option (List Row)) (batch : List Row) (res : MergeResult)
    (h : mergeRun existing batch res) (t : List Row)
    (ht : res.table = some t) (hw : res.wrote = true) (k : Option Str) :
    t.countP (fun r => decide (r.id = k)) ≤ 1 := by
  cases h with
  | noNew hempty => simp at hw
  | write sorted hne hsort =>
    injection ht with ht'
    subst ht'
    rw [List.countP_map]
    have hperm :
        (dropDupById (existing.getD [] ++ newProducts existing batch)).Perm
          sorted := hsort.1
    rw [← hperm.countP_eq]
    show List.countP (fun x => decide (x.id = k))
      (dedupByKey Row.id (existing.getD [] ++ newProducts existing batch) []) ≤ 1
    exact dedupByKey_countP_le_one Row.id k _ []

/-- C1: for every merged table produced (written) by the merge-and-persist
step, no two records share a non-null identifier: every non-null id value
occurs at most once in the resulting table (deduplication by id keeps the
first occurrence). -/
theorem merged_table_nonnull_id_unique
    (existing : Option (List Row)) (batch : List Row) (res : MergeResult)
    (h : mergeRun existing batch res) (t : List Row)
    (ht : res.table = some t) (hw : res.wrote = true) (s : Str) :
    t.countP (fun r => decide (r.id = some s)) ≤ 1 :=
  merged_countP_id_le_one existing batch res h t ht hw (some s)

theorem merged_table_nonnull_id_unique_witness :
    ([rowA, rowB].map projectRow).countP
      (fun r => decide (r.id = some ("A".toList))) ≤ 1 :=
  merged_table_nonnull_id_unique (some [rowA]) [rowB]
    { table := some ([rowA, rowB].map projectRow), wrote := true }
    (mergeRun.write [rowA, rowB] (by decide) ⟨by decide, by decide⟩)
    ([rowA, rowB].map projectRow) rfl rfl ("A".toList)

/-- C9: a run whose accepted new-record set is empty performs no write and
reports the loaded table unchanged (an absent table stays absent). -/
theorem noop_run_skips_write
    (existing : Option (List Row)) (batch : List Row) (res : MergeResult)
    (h : mergeRun existing batch res)
    (hempty : newProducts existing batch = []) :
    res.table = existing ∧ res.wrote = false := by
  cases h with
  | noNew _ => exact ⟨rfl, rfl⟩
  | write sorted hne hsort => exact absurd hempty hne

theorem noop_run_skips_write_witness :
    ({ table := some [rowA], wrote := false } : MergeResult).table
        = some [rowA] ∧
    ({ table := some [rowA], wrote := false } : MergeResult).wrote = false :=
  noop_run_skips_write (some [rowA]) [rowAClash] _
    (mergeRun.noNew (by decide)) (by decide)

/-- C4 (claim as stated, refuted): the sort step is *not* guaranteed to be
stable.  `sort_values` defaults to quicksort, whose contract
(`sortByNameRel`) only promises an ordered permutation; a tie may come
out in either order, so preserving the pre-sort relative order of
equal-name records does not follow. -/
theorem merged_table_sorted_stable_cex :
    ¬ (∀ (pre out : List Row), sortByNameRel pre out →
        sortedByName out = true ∧
        ∀ a b : Row, a.assessment_name = b.assessment_name →
          List.Sublist [a, b] pre → List.Sublist [a, b] out) := by
  intro hclaim
  have hrel : sortByNameRel [rowTie1, rowTie2] [rowTie2, rowTie1] :=
    ⟨List.Perm.swap _ _ _, by decide⟩
  have h2 := (hclaim _ _ hrel).2 rowTie1 rowTie2 rfl (by decide)
  exact absurd h2 (by decide)

/-- C4 (amended): after every merge that writes, the persisted table is
ascending by `assessment_name` under the case-sensitive lexicographic
order (adjacent pairs satisfy `leName`); the order of equal-name ties is
not specified. -/
theorem merged_table_sorted_by_name
    (existing : Option (List Row)) (batch : List Row) (res : MergeResult)
    (h : mergeRun existing batch res) (t : List Row)
    (ht : res.table = some t) (hw : res.wrote = true) :
    sortedByName t = true := by
  cases h with
  | noNew _ => simp at hw
  | write sorted hne hsort =>
    injection ht with ht'
    subst ht'
    rw [sortedByName_map_projectRow]
    exact hsort.2

theorem merged_table_sorted_by_name_witness :
    sortedByName ([rowB].map projectRow) = true :=
  merged_table_sorted_by_name none [rowB]
    { table := some ([rowB].map projectRow), wrote := true }
    (mergeRun.write [rowB] (by decide) ⟨by decide, by decide⟩)
    ([rowB].map projectRow) rfl rfl

/-- C5 (claim as stated, refuted): null-id records are *not* exempt from
deduplication.  With two null-id records in one batch, `drop_duplicates`
treats the null keys as equal and removes the second record. -/
theorem nullid_never_dedup_cex :
    ¬ (∀ (existing : Option (List Row)) (batch : List Row) (r : Row),
        r ∈ batch → r.id = none →
        r ∈ newProducts existing batch ∧
        ∀ res, mergeRun existing batch res →
          ∀ t, res.table = some t → projectRow r ∈ t) := by
  intro hclaim
  have h1 : mergeRun none [rowNull1, rowNull2]
      { table := some ([rowNull1].map projectRow), wrote := true } :=
    mergeRun.write [rowNull1] (by decide) ⟨by decide, by decide⟩
  have h2 := (hclaim none [rowNull1, rowNull2] rowNull2 (by decide) rfl).2
      _ h1 ([rowNull1].map projectRow) rfl
  exact absurd h2 (by decide)

/-- C5 (amended): the merge deduplicates null ids like any other id key
(pandas `drop_duplicates` treats null keys as equal), so a written merged
table contains at most one null-id record. -/
theorem merged_table_nullid_bound
    (existing : Option (List Row)) (batch : List Row) (res : MergeResult)
    (h : mergeRun existing batch res) (t : List Row)
    (ht : res.table = some t) (hw : res.wrote = true) :
    t.countP (fun r => decide (r.id = none)) ≤ 1 :=
  merged_countP_id_le_one existing batch res h t ht hw none

theorem merged_table_nullid_bound_witness :
    ([rowNull1].map projectRow).countP (fun r => decide (r.id = none)) ≤ 1 :=
  merged_table_nullid_bound none [rowNull1, rowNull2]
    { table := some ([rowNull1].map projectRow), wrote := true }
    (mergeRun.write [rowNull1] (by decide) ⟨by decide, by decide⟩)
    ([rowNull1].map projectRow) rfl rfl

/-- C3: existing data wins on identifier collision.  If the prior table
holds exactly one record `e` with id `x`, then whatever the batch
contains, every record with id `x` in the reported table is `e` (and `e`
is still present): the concatenation puts existing rows first and
`drop_duplicates(keep='first')` keeps the first occurrence, while the
incremental filter already removes colliding scraped records. -/
theorem existing_wins
    (t batch : List Row) (res : MergeResult) (x : Str) (e : Row)
    (he : e ∈ t) (hid : e.id = some x) (hpage : e.page = none)
    (huniq : t.countP (fun r => decide (r.id = some x)) = 1)
    (h : mergeRun (some t) batch res)
    (t' : List Row) (ht' : res.table = some t') :
    e ∈ t' ∧ ∀ r ∈ t', r.id = some x → r = e := by
  cases h with
  | noNew hempty =>
    injection ht' with ht''
    subst ht''
    refine ⟨he, ?_⟩
    intro r hr hrid
    exact countP_eq_one_unique huniq hr he (by simp [hrid]) (by simp [hid])
  | write sorted hne hsort =>
    injection ht' with ht''
    subst ht''
    have hnox : ∀ p ∈ newProducts (some t) batch, p.id ≠ some x := by
      intro p hp hpx
      have hmemf := List.mem_filter.mp hp
      have hknown : strId p.id ∈ existingIds (some t) := by
        rw [hpx]
        exact List.mem_map.mpr ⟨e, he, by rw [hid]; rfl⟩
      simp [hknown] at hmemf
    obtain ⟨d, hd, hdk⟩ :=
      dedupByKey_exists_key Row.id (t ++ newProducts (some t) batch) [] e
        (List.mem_append_left _ he) (List.not_mem_nil _)
    have hdid : d.id = some x := by rw [hdk, hid]
    have hdt : d ∈ t := by
      rcases List.mem_append.mp
          ((dedupByKey_sublist Row.id (t ++ newProducts (some t) batch)
            []).subset hd) with h1 | h1
      · exact h1
      · exact absurd hdid (hnox d h1)
    have hde : d = e :=
      countP_eq_one_unique huniq hdt he (by simp [hdid]) (by simp [hid])
    rw [hde] at hd
    have hesorted : e ∈ sorted := (hsort.1.mem_iff).mp hd
    constructor
    · exact List.mem_map.mpr ⟨e, hesorted, projectRow_eq_self hpage⟩
    · intro r hr hrid
      obtain ⟨d', hd', rfl⟩ := List.mem_map.mp hr
      have hd'id : d'.id = some x := hrid
      have hd't : d' ∈ t := by
        rcases List.mem_append.mp
            ((dedupByKey_sublist Row.id (t ++ newProducts (some t) batch)
              []).subset ((hsort.1.mem_iff).mpr hd')) with h1 | h1
        · exact h1
        · exact absurd hd'id (hnox d' h1)
      have : d' = e :=
        countP_eq_one_unique huniq hd't he (by simp [hd'id]) (by simp [hid])
      rw [this, projectRow_eq_self hpage]

theorem existing_wins_witness :
    rowA ∈ ([rowA, rowB].map projectRow) :=
  (existing_wins [rowA] [rowAClash, rowB]
    { table := some ([rowA, rowB].map projectRow), wrote := true }
    ("A".toList) rowA (by decide) rfl rfl (by decide)
    (mergeRun.write [rowA, rowB] (by decide) ⟨by decide, by decide⟩)
    ([rowA, rowB].map projectRow) rfl).1

/-- C2 (claim as stated, refuted): merging the same batch twice is *not*
always a no-op on the second run.  A record with a null id stringifies as
`"None"` in the incremental filter while the persisted null id reloads as
`"nan"`, so the record is never "already known": the second run accepts
it again and performs a second write. -/
theorem merge_idempotent_cex :
    ¬ (∀ (existing : Option (List Row)) (batch : List Row)
          (res1 : MergeResult),
        mergeRun existing batch res1 →
        newProducts res1.table batch = [] ∧
        ∀ res2, mergeRun res1.table batch res2 →
          res2.table = res1.table ∧ res2.wrote = false) := by
  intro hclaim
  have h1 : mergeRun none [rowNull1]
      { table := some ([rowNull1].map projectRow), wrote := true } :=
    mergeRun.write [rowNull1] (by decide) ⟨by decide, by decide⟩
  have h2 := (hclaim none [rowNull1] _ h1).1
  exact absurd h2 (by decide)

/-- C2 (amended): for a batch whose records all carry non-null ids, the
merge is idempotent: after one merge every id of the batch is known, so a
second merge of the same batch contributes zero new records, performs no
write, and reports the same table. -/
theorem merge_idempotent_nonnull
    (existing : Option (List Row)) (batch : List Row) (res1 : MergeResult)
    (hids : ∀ r ∈ batch, r.id ≠ none)
    (h1 : mergeRun existing batch res1) :
    newProducts res1.table batch = [] ∧
    ∀ res2, mergeRun res1.table batch res2 →
      res2.table = res1.table ∧ res2.wrote = false := by
  have hmem : ∀ r ∈ batch, strId r.id ∈ existingIds res1.table := by
    intro r hr
    obtain ⟨s, hs⟩ : ∃ s, r.id = some s := by
      cases hrid : r.id with
      | none => exact absurd hrid (hids r hr)
      | some s => exact ⟨s, rfl⟩
    cases h1 with
    | noNew hempty1 =>
      have := List.filter_eq_nil_iff.mp hempty1 r hr
      simpa using this
    | write sorted hne hsort =>
      show strId r.id ∈
        List.map (fun q => csvStrId q.id) (List.map projectRow sorted)
      rw [List.map_map]
      refine List.mem_map.mpr ?_
      by_cases hknown : strId r.id ∈ existingIds existing
      · cases existing with
        | none => simp [existingIds] at hknown
        | some t =>
          obtain ⟨e, het, hes⟩ := List.mem_map.mp hknown
          obtain ⟨d, hd, hdk⟩ :=
            dedupByKey_exists_key Row.id
              (t ++ newProducts (some t) batch) [] e
              (List.mem_append_left _ het) (List.not_mem_nil _)
          exact ⟨d, (hsort.1.mem_iff).mp hd, by
            show csvStrId d.id = strId r.id
            rw [hdk, hes]⟩
      · have hrp : r ∈ newProducts existing batch :=
          List.mem_filter.mpr ⟨hr, by simp [hknown]⟩
        obtain ⟨d, hd, hdk⟩ :=
          dedupByKey_exists_key Row.id
            (existing.getD [] ++ newProducts existing batch) [] r
            (List.mem_append_right _ hrp) (List.not_mem_nil _)
        exact ⟨d, (hsort.1.mem_iff).mp hd, by
          show csvStrId d.id = strId r.id
          rw [hdk, hs]; rfl⟩
  have hempty : newProducts res1.table batch = [] := by
    rw [newProducts, List.filter_eq_nil_iff]
    intro r hr
    simp [hmem r hr]
  refine ⟨hempty, ?_⟩
  intro res2 h2
  cases h2 with
  | noNew _ => exact ⟨rfl, rfl⟩
  | write sorted2 hne2 hsort2 => exact absurd hempty hne2

theorem merge_idempotent_nonnull_witness :
    newProducts (some ([rowA, rowB].map projectRow)) [rowB] = [] :=
  (merge_idempotent_nonnull (some [rowA]) [rowB]
    { table := some ([rowA, rowB].map projectRow), wrote := true }
    (by decide)
    (mergeRun.write [rowA, rowB] (by decide) ⟨by decide, by decide⟩)).1

/-- C6 (claim as stated, refuted): the page-level retry backoff is not
2 seconds.  With every attempt faulting on navigation, the sleep trace of
`scrape_page` is `[5, 5]` (scrape_data.py:122 sleeps 5), not `[2, 2]`. -/
theorem page_retry_backoff_cex :
    ¬ (∀ (pn : Nat) (envs : Nat → AttemptEnv),
        (∀ i, (envs i).navOk = false) →
        scrape_page pn envs =
          { records := [], sleeps := [2, 2], rowWarnings := 0,
            errorLogged := true }) := by
  intro hclaim
  have h := hclaim 4
    (fun _ => { navOk := false, waitFound := fun _ => false, tables := [] })
    (fun _ => rfl)
  exact absurd h (by decide)

/-- C6 (amended): a faulting attempt is abandoned and retried up to a
budget of 3 attempts with a fixed 5-second backoff between page-level
attempts (the inner `wait_for_element` retries a timed-out wait with a
2-second backoff before giving up); after the last attempt fails,
`scrape_page` returns an empty record list and logs the error instead of
raising.  First conjunct: all three attempts fail on navigation.  Second
conjunct: all three attempts fail in the rendering wait, whose three
inner tries contribute the 2-second sleeps. -/
theorem page_retry_backoff
    (pn : Nat) (tabs : List (List RawRow)) (wf : Nat → Bool) :
    scrape_page pn (fun _ =>
        { navOk := false, waitFound := wf, tables := tabs }) =
      { records := [], sleeps := [5, 5], rowWarnings := 0,
        errorLogged := true } ∧
    scrape_page pn (fun _ =>
        { navOk := true, waitFound := fun _ => false, tables := tabs }) =
      { records := [], sleeps := [2, 2, 5, 2, 2, 5, 2, 2], rowWarnings := 0,
        errorLogged := true } :=
  ⟨rfl, rfl⟩

/-- C7: row-level fault isolation.  On a page whose rows are one
malformed row (missing name element) and nine well-formed rows, a
successful first attempt returns exactly the nine well-formed records,
counts one logged row warning, and logs no page error. -/
theorem row_isolation
    (pn : Nat) (rows : List RawRow) (envs : Nat → AttemptEnv)
    (henv : envs 0 =
      { navOk := true, waitFound := fun _ => true, tables := [rows] })
    (hbad : rows.countP (fun r => !r.hasName) = 1)
    (hgood : rows.countP (fun r => r.hasName) = 9) :
    (scrape_page pn envs).records =
      (rows.filter (fun r => r.hasName)).map (extractFields pn) ∧
    (scrape_page pn envs).records.length = 9 ∧
    (scrape_page pn envs).rowWarnings = 1 ∧
    (scrape_page pn envs).errorLogged = false := by
  have hres : scrape_page pn envs =
      { records := rows.filterMap (extract_row pn), sleeps := [],
        rowWarnings := rows.countP (fun r => !r.hasName),
        errorLogged := false } := by
    simp [scrape_page, scrape_page_go, scrape_attempt, henv,
      wait_for_element, wait_for_element_go, processTables]
  rw [hres]
  refine ⟨filterMap_extract_row pn rows, ?_, hbad, rfl⟩
  rw [filterMap_extract_row pn rows, List.length_map,
    ← List.countP_eq_length_filter]
  exact hgood

theorem row_isolation_witness :
    (scrape_page 1 (fun _ =>
      { navOk := true, waitFound := fun _ => true,
        tables := [badRaw :: List.replicate 9 goodRaw] })).records.length
      = 9 :=
  (row_isolation 1 (badRaw :: List.replicate 9 goodRaw)
    (fun _ =>
      { navOk := true, waitFound := fun _ => true,
        tables := [badRaw :: List.replicate 9 goodRaw] })
    rfl (by decide) (by decide)).2.1

/-- C8: `test_type` extraction policy.  Badge texts are preferred and the
cell text ignored when badge elements exist; with no badge elements the
4th cell's text is split by line breaks; candidates are
whitespace-normalized, empty ones dropped; the result is the sorted
deduplicated set joined by ", ", and "N/A" when nothing remains.  In
particular a row with no badges whose cell holds the lines "K7" and
"A2 " yields "A2, K7". -/
theorem test_type_extraction_policy :
    get_test_codes [] ("K7\nA2 ".toList) = "A2, K7".toList ∧
    get_test_codes ["B2 ".toList, "A1".toList, "B2".toList] ("X9".toList)
        = "A1, B2".toList ∧
    get_test_codes ["  ".toList, "C3".toList] [] = "C3".toList ∧
    get_test_codes [] ("  \n ".toList) = "N/A".toList ∧
    get_test_codes [] [] = "N/A".toList :=
  ⟨by decide, by decide, by decide, by decide, by decide⟩

theorem dropWhile_head_not {p : Char → Bool} :
    ∀ (l : Str) (a : Char) (t : Str), l.dropWhile p = a :: t → p a = false := by
  intro l
  induction l with
  | nil => intro a t h; simp [List.dropWhile] at h
  | cons c cs ih =>
    intro a t h
    rw [List.dropWhile_cons] at h
    by_cases hc : p c = true
    · rw [if_pos hc] at h
      exact ih a t h
    · rw [if_neg hc] at h
      injection h with h1 h2
      subst h1
      cases hpc : p c
      · rfl
      · exact absurd hpc hc

theorem dropWhile_idem {p : Char → Bool} :
    ∀ l : Str, (l.dropWhile p).dropWhile p = l.dropWhile p := by
  intro l
  induction l with
  | nil => rfl
  | cons c cs ih =>
    rw [List.dropWhile_cons]
    by_cases hc : p c = true
    · rw [if_pos hc]; exact ih
    · rw [if_neg hc, List.dropWhile_cons, if_neg hc]

theorem dropWhile_append_of_head {p : Char → Bool} {x y : Str}
    (hx : x.dropWhile p = x) (hne : x ≠ []) :
    (x ++ y).dropWhile p = x ++ y := by
  cases x with
  | nil => exact absurd rfl hne
  | cons c t =>
    have hc : p c = false := by
      rw [List.dropWhile_cons] at hx
      by_cases h : p c = true
      · rw [if_pos h] at hx
        have hlen := congrArg List.length hx
        have hle := ((List.dropWhile_suffix p (l := t)).sublist).length_le
        simp at hlen
        omega
      · cases hpc : p c
        · rfl
        · exact absurd hpc h
    rw [List.cons_append, List.dropWhile_cons, if_neg (by simp [hc])]

theorem pyStrip_dropWhile (s : Str) :
    (pyStrip s).dropWhile pyIsSpace = pyStrip s := by
  cases hB : pyStrip s with
  | nil => rfl
  | cons c t =>
    have hpre : (c :: t) <+: s.dropWhile pyIsSpace := by
      rw [← hB]
      show ((s.dropWhile pyIsSpace).reverse.dropWhile pyIsSpace).reverse <+:
        s.dropWhile pyIsSpace
      have h2 := List.dropWhile_suffix (p := pyIsSpace)
        (l := (s.dropWhile pyIsSpace).reverse)
      rw [show (s.dropWhile pyIsSpace).reverse.dropWhile pyIsSpace =
          ((s.dropWhile pyIsSpace).reverse.dropWhile
            pyIsSpace).reverse.reverse from (List.reverse_reverse _).symm]
        at h2
      exact List.reverse_suffix.mp h2
    obtain ⟨r, hr⟩ := hpre
    have hc : pyIsSpace c = false :=
      dropWhile_head_not s c (t ++ r) (by rw [← hr, List.cons_append])
    rw [List.dropWhile_cons, if_neg (by simp [hc])]

theorem pyStrip_reverse_dropWhile (s : Str) :
    (pyStrip s).reverse.dropWhile pyIsSpace = (pyStrip s).reverse := by
  have h : (pyStrip s).reverse =
      (s.dropWhile pyIsSpace).reverse.dropWhile pyIsSpace := by
    simp only [pyStrip, List.reverse_reverse]
  rw [h]
  exact dropWhile_idem _

theorem pyStrip_of_clean {l : Str} (h1 : l.dropWhile pyIsSpace = l)
    (h2 : l.reverse.dropWhile pyIsSpace = l.reverse) : pyStrip l = l := by
  simp only [pyStrip, h1, h2, List.reverse_reverse]

theorem pyStrip_idem (s : Str) : pyStrip (pyStrip s) = pyStrip s :=
  pyStrip_of_clean (pyStrip_dropWhile s) (pyStrip_reverse_dropWhile s)

theorem url_head_ne_nil {v : Str}
    (h : (("http://".toList).isPrefixOf v ||
      ("https://".toList).isPrefixOf v) = true) : v ≠ [] := by
  intro hnil
  subst hnil
  exact absurd h (by decide)

/-- Every output of `standardize_url` is empty or a stripped string
starting with one of the two schemes — exactly the shapes the function
maps to themselves. -/
theorem standardize_url_canonical (u : Str) :
    standardize_url u = [] ∨
    (pyStrip (standardize_url u) = standardize_url u ∧
      (("http://".toList).isPrefixOf (standardize_url u) ||
        ("https://".toList).isPrefixOf (standardize_url u)) = true) := by
  by_cases hu : u = []
  · left; simp [standardize_url, hu]
  · by_cases hpre : (("http://".toList).isPrefixOf (pyStrip u) ||
        ("https://".toList).isPrefixOf (pyStrip u)) = true
    · have hout : standardize_url u = pyStrip u := by
        unfold standardize_url
        rw [if_neg hu]
        show (if (("http://".toList).isPrefixOf (pyStrip u) ||
            ("https://".toList).isPrefixOf (pyStrip u)) = true
          then pyStrip u
          else "https://www.shl.com".toList ++ pyStrip u) = pyStrip u
        rw [if_pos hpre]
      right
      rw [hout]
      exact ⟨pyStrip_idem u, hpre⟩
    · have hout : standardize_url u =
          "https://www.shl.com".toList ++ pyStrip u := by
        unfold standardize_url
        rw [if_neg hu]
        show (if (("http://".toList).isPrefixOf (pyStrip u) ||
            ("https://".toList).isPrefixOf (pyStrip u)) = true
          then pyStrip u
          else "https://www.shl.com".toList ++ pyStrip u) =
          "https://www.shl.com".toList ++ pyStrip u
        rw [if_neg hpre]
      right
      rw [hout]
      constructor
      · apply pyStrip_of_clean
        · exact dropWhile_append_of_head (by decide) (by decide)
        · rw [List.reverse_append]
          by_cases hv : pyStrip u = []
          · rw [hv]
            simp only [List.reverse_nil, List.nil_append]
            decide
          · exact dropWhile_append_of_head (pyStrip_reverse_dropWhile u)
              (fun hnil => hv (List.reverse_eq_nil_iff.mp hnil))
      · have hp : ("https://".toList).isPrefixOf
            ("https://www.shl.com".toList ++ pyStrip u) = true := rfl
        rw [hp, Bool.or_true]

/-- A string already in canonical output shape is a fixed point of
`standardize_url`. -/
theorem standardize_url_of_canonical {v : Str}
    (h : v = [] ∨ (pyStrip v = v ∧
      (("http://".toList).isPrefixOf v ||
        ("https://".toList).isPrefixOf v) = true)) :
    standardize_url v = v := by
  rcases h with rfl | ⟨h1, h2⟩
  · rfl
  · have hvne : v ≠ [] := url_head_ne_nil h2
    unfold standardize_url
    rw [if_neg hvne]
    show (if (("http://".toList).isPrefixOf (pyStrip v) ||
        ("https://".toList).isPrefixOf (pyStrip v)) = true
      then pyStrip v
      else "https://www.shl.com".toList ++ pyStrip v) = v
    rw [h1, if_pos h2]

/-- C10: `standardize_url` is idempotent — its output is either the empty
string or a stripped string beginning with `http://` or `https://`, and
each of those shapes is mapped to itself. -/
theorem standardize_url_idem (u : Str) :
    standardize_url (standardize_url u) = standardize_url u :=
  standardize_url_of_canonical (standardize_url_canonical u)

